import Mathlib

/-!
Shallow embedding of `src/reliable.c`, a sliding-window ARQ protocol engine.

Machine integers are modelled as `Nat` with explicit `% 2^32` where 32-bit
wraparound matters.  Byte-order conversions (`htonl`/`ntohl`/`htons`/`ntohs`)
are inverse bijections applied in balanced pairs in the source, so packet
fields are modelled directly as host-order values.  The external collaborators
(the checksum primitive `cksum`, the channel `conn_sendpkt`, the local source
`conn_input` and sink `conn_output`) are modelled as parameters and explicit
event lists: each engine function returns, besides the new state, the list of
packets it handed to `conn_sendpkt` and the payloads it handed to
`conn_output`.
-/

/-- The 32-bit modulus for unsigned wraparound arithmetic. -/
def U32 : Nat := 4294967296

/-- Reduction modulo 2^32, the effect of storing into a `uint32_t`. -/
def u32 (n : Nat) : Nat := n % U32

/-- `packet_t` from `rlib.h` in host order: checksum, sequence number,
ack number, declared length (header + payload) and the payload bytes.
A standalone ack (`struct ack_packet`) is the same record with `len = 8`,
`seqno = 0` and no payload. -/
structure Packet where
  cksum : Nat
  seqno : Nat
  ackno : Nat
  len   : Nat
  data  : List Nat
deriving DecidableEq, Inhabited

/-- `struct ringbuf`: reader index, writer index, capacity `size`, occupancy
`count`, and the backing array (a list of length `size`). -/
structure Ringbuf where
  reader : Nat
  writer : Nat
  size   : Nat
  count  : Nat
  buffer : List Packet
deriving DecidableEq, Inhabited

/-- `buf_space`: number of free slots, `size - count`. -/
def buf_space (buf : Ringbuf) : Nat := buf.size - buf.count

/-- `put_pkt`: place a packet at the writer index if space is left, advancing
the writer modulo `size` and incrementing `count`; returns the new buffer and
the C return code (0 on success, 1 when full, buffer unchanged). -/
def put_pkt (buf : Ringbuf) (pkt : Packet) : Ringbuf × Nat :=
  if buf.count < buf.size then
    ({ buf with
        buffer := buf.buffer.set buf.writer pkt,
        writer := (buf.writer + 1) % buf.size,
        count := buf.count + 1 }, 0)
  else
    (buf, 1)

/-- `read_pkt`: the packet at the reader index when `count > 0`, else `NULL`
(modelled as `none`). -/
def read_pkt (buf : Ringbuf) : Option Packet :=
  if 0 < buf.count then some (buf.buffer.getD buf.reader default) else none

/-- `pop_pkt`: advance the reader modulo `size` and decrement `count` when the
buffer is non-empty (return code 0); on an empty buffer return code 1 with the
buffer unchanged. -/
def pop_pkt (buf : Ringbuf) : Ringbuf × Nat :=
  match read_pkt buf with
  | some _ => ({ buf with reader := (buf.reader + 1) % buf.size, count := buf.count - 1 }, 0)
  | none => (buf, 1)

/-- Well-formedness of a ring buffer: the backing array has exactly `size`
cells, occupancy is within capacity, and the reader index is in bounds. -/
def Ringbuf.WF (buf : Ringbuf) : Prop :=
  buf.buffer.length = buf.size ∧ buf.count ≤ buf.size ∧ buf.reader < buf.size

instance (buf : Ringbuf) : Decidable buf.WF := by
  unfold Ringbuf.WF; infer_instance

/-- The logical contents of the window, oldest to newest: `count` entries
starting at the reader index, wrapping modulo `size`. -/
def Ringbuf.toList (buf : Ringbuf) : List Packet :=
  (List.range buf.count).map (fun i => buf.buffer.getD ((buf.reader + i) % buf.size) default)

/-- `struct reliable_state` (the per-session fields; the intrusive linked-list
pointers and the `conn_t` handle are host-environment bookkeeping and carry no
protocol state). -/
structure RelState where
  pkt_buf : Ringbuf
  latest_seqno_snapshot : Nat
  timer : Int
  timeout : Int
  next_timeout : Int
  next_ackno : Nat
  next_seqno : Nat
  read_error : Bool
deriving DecidableEq, Inhabited

/-- One result of a `conn_input` call: `eof` models the return value `-1`,
`data bytes` models a read of `bytes.length` bytes (the source yields at most
500 bytes per call; a `data []` result models the return value `0`). -/
inductive ConnInput where
  | eof
  | data (bytes : List Nat)
deriving DecidableEq, Inhabited

/-- `ingest_pkt`: if the window has space, build a packet with the current
`next_seqno` (post-incremented modulo 2^32), the current `next_ackno`, length
`len + 12` for positive `len` and `12` otherwise (the EOF packet), checksum
computed over the packet with the checksum field zeroed; push it into the
window ONLY when `len > 0`, and send it.  Returns the new state and the list
of packets sent. -/
def ingest_pkt (ck : Packet → Nat → Nat) (r : RelState) (payload : List Nat) (len : Int) :
    RelState × List Packet :=
  if 0 < buf_space r.pkt_buf then
    let pkt_size : Nat := if 0 < len then len.toNat + 12 else 12
    let seqno := r.next_seqno
    let r1 := { r with next_seqno := u32 (r.next_seqno + 1) }
    let pkt0 : Packet :=
      { cksum := 0, seqno := seqno, ackno := r1.next_ackno, len := pkt_size,
        data := if 0 < len then payload.take len.toNat else [] }
    let pkt : Packet := { pkt0 with cksum := ck pkt0 pkt_size }
    let r2 := if 0 < len then { r1 with pkt_buf := (put_pkt r1.pkt_buf pkt).1 } else r1
    (r2, [pkt])
  else
    (r, [])

/-- The raw buffer indices visited by the `resend` loop: `reader + i` for
`i = 0 .. count - 1`, with NO reduction modulo `size` (as in the source). -/
def resend_indices (buf : Ringbuf) : List Nat :=
  (List.range buf.count).map (fun i => buf.reader + i)

/-- `resend`: count the timer down; when the countdown is spent and the window
is non-empty, walk `buffer[reader + i]` for `i = 0 .. count - 1` (raw indices,
out-of-bounds cells modelled by `getD`'s default), resending every visited
packet whose seqno is at most the previous snapshot; then record the seqno of
the last visited cell as the new snapshot and reset the countdown. -/
def resend (r : RelState) : RelState × List Packet :=
  let r1 := { r with next_timeout := r.next_timeout - r.timer }
  if r1.next_timeout ≤ 0 ∧ 0 < r1.pkt_buf.count then
    let scanned := (resend_indices r1.pkt_buf).map (fun i => r1.pkt_buf.buffer.getD i default)
    let sent := scanned.filter (fun p => p.seqno ≤ r1.latest_seqno_snapshot)
    let last := r1.pkt_buf.buffer.getD (r1.pkt_buf.reader + (r1.pkt_buf.count - 1)) default
    ({ r1 with latest_seqno_snapshot := last.seqno, next_timeout := r1.timeout }, sent)
  else
    (r1, [])

/-- The buffer index the `ack_pkt` piggyback branch dereferences:
`writer - 1` computed in `uint32_t` arithmetic, i.e. `(writer + 2^32 - 1) mod
2^32` — NOT reduced modulo the window capacity. -/
def ack_pkt_index (buf : Ringbuf) : Nat := (buf.writer + (U32 - 1)) % U32

/-- `ack_pkt`: pre-increment `next_ackno` (modulo 2^32); if the window is
empty, build and send a standalone 8-byte ack carrying it; otherwise write it
into the ackno field of `buffer[writer - 1]` (uint32 arithmetic, see
`ack_pkt_index`; an out-of-bounds `List.set` is a no-op) and recompute that
cell's checksum over the updated record (the source does not zero the stored
checksum field first).  Returns the new state and the packets sent. -/
def ack_pkt (ck : Packet → Nat → Nat) (r : RelState) : RelState × List Packet :=
  let ackno := u32 (r.next_ackno + 1)
  let r1 := { r with next_ackno := ackno }
  if r1.pkt_buf.count = 0 then
    let ack0 : Packet := { cksum := 0, seqno := 0, ackno := ackno, len := 8, data := [] }
    let ack : Packet := { ack0 with cksum := ck ack0 8 }
    (r1, [ack])
  else
    let idx := ack_pkt_index r1.pkt_buf
    let old := r1.pkt_buf.buffer.getD idx default
    let upd0 : Packet := { old with ackno := ackno }
    let upd : Packet := { upd0 with cksum := ck upd0 upd0.len }
    ({ r1 with pkt_buf := { r1.pkt_buf with buffer := r1.pkt_buf.buffer.set idx upd } }, [])

/-- The observable steps of `rel_create`, in source order: the session struct
is `xmalloc`ed and zeroed, then linked into the global `rel_list`, and only
then is the window-size configuration check performed (`exit(1)` when
`window < 1`); field setup follows on success. -/
inductive CreateAction where
  | allocSession
  | registerSession
  | fatalExit
  | initFields
deriving DecidableEq, Inhabited

/-- The ordered action trace of `rel_create` for a given configured window. -/
def rel_create_actions (window : Int) : List CreateAction :=
  [CreateAction.allocSession, CreateAction.registerSession] ++
    (if window < 1 then [CreateAction.fatalExit] else [CreateAction.initFields])

/-- The session state `rel_create` returns on a valid configuration:
`next_seqno = next_ackno = 1`, snapshot 0, countdown set to the timeout, an
empty window of capacity `window` backed by a zeroed array, and the EOF flag
clear. -/
def rel_create_state (window : Nat) (timer timeout : Int) : RelState :=
  { pkt_buf :=
      { reader := 0, writer := 0, size := window, count := 0,
        buffer := List.replicate window default },
    latest_seqno_snapshot := 0,
    timer := timer, timeout := timeout, next_timeout := timeout,
    next_ackno := 1, next_seqno := 1, read_error := false }

/-- `rel_read`: if the window has a free slot, call `conn_input` once (the
head of `stream`, an empty stream acting as a 0-byte read), set the EOF flag
from the result, and on EOF or a positive read hand the chunk to
`ingest_pkt`.  Returns the new state, the packets sent, and the unconsumed
remainder of the input stream.  The source performs exactly one `conn_input`
call per invocation. -/
def rel_read (ck : Packet → Nat → Nat) (s : RelState) (stream : List ConnInput) :
    RelState × List Packet × List ConnInput :=
  if 0 < buf_space s.pkt_buf then
    match stream with
    | [] => ({ s with read_error := false }, [], [])
    | ConnInput.eof :: rest =>
        let s1 := { s with read_error := true }
        ((ingest_pkt ck s1 [] (-1)).1, (ingest_pkt ck s1 [] (-1)).2, rest)
    | ConnInput.data bytes :: rest =>
        if bytes.length = 0 then
          ({ s with read_error := false }, [], rest)
        else
          let s1 := { s with read_error := false }
          ((ingest_pkt ck s1 bytes (Int.ofNat bytes.length)).1,
            (ingest_pkt ck s1 bytes (Int.ofNat bytes.length)).2, rest)
  else
    (s, [], stream)

/-- The ack-processing loop of `rel_recvpkt` (source lines 294-305): while
`read_pkt` yields a packet whose seqno is strictly below the received ackno,
`pop_pkt` it.  The `0 < count` test together with `buffer[reader]` is exactly
the inlined `read_pkt`. -/
def ack_scan (buf : Ringbuf) (a : Nat) : Ringbuf :=
  if h : 0 < buf.count then
    if (buf.buffer.getD buf.reader default).seqno < a then
      ack_scan (pop_pkt buf).1 a
    else
      buf
  else
    buf
termination_by buf.count
decreasing_by
  simp only [pop_pkt, read_pkt, if_pos h]
  omega

/-- The result of `rel_recvpkt`: the new session state, the packets handed to
`conn_sendpkt`, the payloads handed to `conn_output`, whether `rel_destroy`
was called, and the unconsumed input stream. -/
structure RecvResult where
  state : RelState
  sent : List Packet
  outputs : List (List Nat)
  destroyed : Bool
  rest : List ConnInput
deriving DecidableEq, Inhabited

/-- `rel_recvpkt`: dispatch on the declared length field only (the received
byte count `n` and the checksum field are never consulted).  Length 8: run the
cumulative-ack pop loop, then `rel_read`.  Length 12: EOF — output a
zero-length delivery and destroy the session when the local EOF flag is set
and the window is drained.  Anything else: data — `ack_pkt`, then output the
`len - 12` payload bytes. -/
def rel_recvpkt (ck : Packet → Nat → Nat) (r : RelState) (pkt : Packet) (n : Nat)
    (stream : List ConnInput) : RecvResult :=
  if pkt.len = 8 then
    let r1 := { r with pkt_buf := ack_scan r.pkt_buf pkt.ackno }
    { state := (rel_read ck r1 stream).1, sent := (rel_read ck r1 stream).2.1,
      outputs := [], destroyed := false, rest := (rel_read ck r1 stream).2.2 }
  else if pkt.len = 12 then
    { state := r, sent := [], outputs := [[]],
      destroyed := r.read_error && decide (r.pkt_buf.count = 0), rest := stream }
  else
    { state := (ack_pkt ck r).1, sent := (ack_pkt ck r).2,
      outputs := [pkt.data.take (pkt.len - 12)], destroyed := false, rest := stream }

/-- The spec's decode-validity condition (§4.1): the declared length matches
the received byte count and the checksum field equals the checksum of the
packet with that field zeroed.  Used to state the corruption claims; the
receive handler in the source computes no such check. -/
def checksum_valid (ck : Packet → Nat → Nat) (p : Packet) (n : Nat) : Prop :=
  p.len = n ∧ p.cksum = ck { p with cksum := 0 } p.len

instance (ck : Packet → Nat → Nat) (p : Packet) (n : Nat) :
    Decidable (checksum_valid ck p n) := by
  unfold checksum_valid; infer_instance

/-! ## Helper lemmas about the ring buffer -/

theorem toList_eq_nil (buf : Ringbuf) (h : buf.count = 0) : buf.toList = [] := by
  simp [Ringbuf.toList, h]

theorem pop_count (buf : Ringbuf) (h : 0 < buf.count) :
    (pop_pkt buf).1.count = buf.count - 1 := by
  simp [pop_pkt, read_pkt, if_pos h]

theorem pop_size (buf : Ringbuf) : (pop_pkt buf).1.size = buf.size := by
  unfold pop_pkt read_pkt
  split <;> simp_all

theorem pop_WF (buf : Ringbuf) (hwf : buf.WF) (h : 0 < buf.count) : (pop_pkt buf).1.WF := by
  obtain ⟨h1, h2, h3⟩ := hwf
  simp only [pop_pkt, read_pkt, if_pos h, Ringbuf.WF]
  exact ⟨h1, by omega, Nat.mod_lt _ (by omega)⟩

theorem pop_eq (buf : Ringbuf) (h : 0 < buf.count) :
    pop_pkt buf
      = ({ buf with reader := (buf.reader + 1) % buf.size, count := buf.count - 1 }, 0) := by
  simp [pop_pkt, read_pkt, if_pos h]

theorem toList_cons (buf : Ringbuf) (hwf : buf.WF) (h : 0 < buf.count) :
    buf.toList = buf.buffer.getD buf.reader default :: (pop_pkt buf).1.toList := by
  obtain ⟨h1, h2, h3⟩ := hwf
  obtain ⟨c, hc⟩ : ∃ c, buf.count = c + 1 := ⟨buf.count - 1, by omega⟩
  rw [pop_eq buf h]
  simp only [Ringbuf.toList, hc]
  rw [List.range_succ_eq_map]
  simp only [List.map_cons, List.map_map, Nat.add_zero, Nat.mod_eq_of_lt h3,
    Nat.add_sub_cancel]
  congr 1
  refine List.map_congr_left (fun i _ => ?_)
  show buf.buffer.getD ((buf.reader + (i + 1)) % buf.size) default
      = buf.buffer.getD (((buf.reader + 1) % buf.size + i) % buf.size) default
  rw [Nat.mod_add_mod]
  congr 2
  omega

theorem ack_scan_toList_aux (a : Nat) :
    ∀ n (buf : Ringbuf), buf.count ≤ n → buf.WF →
      (ack_scan buf a).toList = buf.toList.dropWhile (fun p => p.seqno < a) := by
  intro n
  induction n with
  | zero =>
    intro buf hn _
    have h0 : buf.count = 0 := by omega
    rw [ack_scan, dif_neg (by omega), toList_eq_nil buf h0]
    rfl
  | succ n ih =>
    intro buf hn hwf
    rw [ack_scan]
    by_cases h : 0 < buf.count
    · rw [dif_pos h]
      by_cases hs : (buf.buffer.getD buf.reader default).seqno < a
      · rw [if_pos hs, toList_cons buf hwf h, List.dropWhile_cons, if_pos (by simpa using hs)]
        refine ih (pop_pkt buf).1 ?_ (pop_WF buf hwf h)
        rw [pop_count buf h]
        omega
      · rw [if_neg hs, toList_cons buf hwf h, List.dropWhile_cons, if_neg (by simpa using hs)]
    · rw [dif_neg h]
      have h0 : buf.count = 0 := by omega
      rw [toList_eq_nil buf h0]
      rfl

theorem ack_scan_toList (buf : Ringbuf) (a : Nat) (hwf : buf.WF) :
    (ack_scan buf a).toList = buf.toList.dropWhile (fun p => p.seqno < a) :=
  ack_scan_toList_aux a buf.count buf (le_refl _) hwf

theorem ack_scan_count_size_aux (a : Nat) :
    ∀ n (buf : Ringbuf), buf.count ≤ n →
      (ack_scan buf a).count ≤ buf.count ∧ (ack_scan buf a).size = buf.size := by
  intro n
  induction n with
  | zero =>
    intro buf hn
    rw [ack_scan, dif_neg (by omega)]
    exact ⟨le_refl _, rfl⟩
  | succ n ih =>
    intro buf hn
    rw [ack_scan]
    by_cases h : 0 < buf.count
    · rw [dif_pos h]
      by_cases hs : (buf.buffer.getD buf.reader default).seqno < a
      · rw [if_pos hs]
        have := ih (pop_pkt buf).1 (by rw [pop_count buf h]; omega)
        rw [pop_count buf h] at this
        rw [pop_size buf] at this
        exact ⟨by omega, this.2⟩
      · rw [if_neg hs]
        exact ⟨le_refl _, rfl⟩
    · rw [dif_neg h]
      exact ⟨le_refl _, rfl⟩

theorem sorted_dropWhile_ge (a : Nat) :
    ∀ l : List Packet, l.Pairwise (fun p q => p.seqno < q.seqno) →
      ∀ p ∈ l.dropWhile (fun q => q.seqno < a), a ≤ p.seqno := by
  intro l
  induction l with
  | nil => simp
  | cons x xs ih =>
    intro hp p hmem
    rw [List.dropWhile_cons] at hmem
    by_cases hx : x.seqno < a
    · rw [if_pos (by simpa using hx)] at hmem
      exact ih hp.tail p hmem
    · rw [if_neg (by simpa using hx)] at hmem
      rcases List.mem_cons.mp hmem with rfl | hmem
      · omega
      · have := (List.pairwise_cons.mp hp).1 p hmem
        omega

/-! ## Concrete states used by witnesses, counterexamples and failing inputs -/

/-- A trivially computable stand-in for the pluggable checksum primitive. -/
def ckZero : Packet → Nat → Nat := fun _ _ => 0

/-- A one-byte data packet with sequence number 1. -/
def pktA : Packet := { cksum := 0, seqno := 1, ackno := 1, len := 13, data := [10] }

/-- A one-byte data packet with sequence number 2. -/
def pktB : Packet := { cksum := 0, seqno := 2, ackno := 1, len := 13, data := [20] }

/-- A one-byte data packet with sequence number 3. -/
def pktC : Packet := { cksum := 0, seqno := 3, ackno := 1, len := 13, data := [30] }

/-- A capacity-2 window holding packets 1 and 2, no wraparound. -/
def buf0 : Ringbuf := { reader := 0, writer := 0, size := 2, count := 2, buffer := [pktA, pktB] }

/-- A freshly created session with window capacity 2. -/
def stW2 : RelState := rel_create_state 2 500 500

/-- A wrapped capacity-2 window: push `pktA`, push `pktB`, pop, push `pktC`
leaves reader = 1, writer = 1, count = 2 with cells `[pktC, pktB]`; the logical
window order is `pktB` then `pktC` and `reader + count > size`. -/
def wrapBuf : Ringbuf := { reader := 1, writer := 1, size := 2, count := 2, buffer := [pktC, pktB] }

/-- A session whose countdown has expired while `wrapBuf` is outstanding. -/
def wrapState : RelState :=
  { pkt_buf := wrapBuf, latest_seqno_snapshot := 3, timer := 500, timeout := 500,
    next_timeout := 500, next_ackno := 1, next_seqno := 4, read_error := false }

/-- A capacity-1 window right after its single push: the writer has wrapped
back to 0 while the window is non-empty. -/
def fullBuf1 : Ringbuf := { reader := 0, writer := 0, size := 1, count := 1, buffer := [pktA] }

/-- A session holding `fullBuf1` as its window. -/
def fullState : RelState :=
  { pkt_buf := fullBuf1, latest_seqno_snapshot := 0, timer := 500, timeout := 500,
    next_timeout := 500, next_ackno := 1, next_seqno := 2, read_error := false }

/-- A data packet whose stored checksum (7) differs from the checksum `ckZero`
computes (0): a corrupted packet in the sense of the spec. -/
def badPkt : Packet := { cksum := 7, seqno := 5, ackno := 1, len := 13, data := [65] }

/-! ## Claims -/

/-- C1: for every session window and received ack packet, the ack-processing
loop of `rel_recvpkt` pops entries from oldest onward exactly while the oldest
entry's sequence number is strictly below the received ack number — the
resulting window is precisely the `dropWhile` suffix of the old one (so no
other entry is removed), and, the window being sorted by sequence number,
every remaining entry has sequence number at least the ack number. -/
theorem c1_cumulative_ack_pop (buf : Ringbuf) (a : Nat) (hwf : buf.WF)
    (hsorted : buf.toList.Pairwise (fun p q => p.seqno < q.seqno)) :
    (ack_scan buf a).toList = buf.toList.dropWhile (fun p => p.seqno < a) ∧
    ∀ p ∈ (ack_scan buf a).toList, a ≤ p.seqno := by
  have h := ack_scan_toList buf a hwf
  exact ⟨h, by rw [h]; exact sorted_dropWhile_ge a buf.toList hsorted⟩

theorem c1_witness :
    (ack_scan buf0 2).toList = buf0.toList.dropWhile (fun p => p.seqno < 2) ∧
    ∀ p ∈ (ack_scan buf0 2).toList, 2 ≤ p.seqno :=
  c1_cumulative_ack_pop buf0 2 (by decide) (by decide)

/-- C10: on an empty window, `read_pkt` returns no packet and `pop_pkt`
returns the failure code 1 with the buffer (reader, writer, count and cells)
completely unchanged. -/
theorem c10_empty_peek_pop (buf : Ringbuf) (h : buf.count = 0) :
    read_pkt buf = none ∧ pop_pkt buf = (buf, 1) := by
  constructor
  · simp [read_pkt, h]
  · simp [pop_pkt, read_pkt, h]

theorem c10_witness :
    read_pkt stW2.pkt_buf = none ∧ pop_pkt stW2.pkt_buf = (stW2.pkt_buf, 1) :=
  c10_empty_peek_pop stW2.pkt_buf (by decide)

/-- C2 (code bug): `rel_recvpkt` never verifies the checksum nor compares the
declared length against the received byte count `n`.  At the concrete
corrupted packet `badPkt` (stored checksum 7, computed checksum 0) the handler
nonetheless sends a standalone ack, advances `next_ackno` and delivers the
payload to the output sink — the claim (and spec) require it to be silently
discarded with no effect. -/
theorem c2_corrupted_packet_not_discarded :
    ¬ checksum_valid ckZero badPkt 13 ∧
    (rel_recvpkt ckZero stW2 badPkt 13 []).sent
      = [{ cksum := 0, seqno := 0, ackno := 2, len := 8, data := [] }] ∧
    (rel_recvpkt ckZero stW2 badPkt 13 []).outputs = [[65]] ∧
    (rel_recvpkt ckZero stW2 badPkt 13 []).state.next_ackno = 2 ∧
    stW2.next_ackno = 1 := by
  decide

theorem ack_pkt_next_ackno (ck : Packet → Nat → Nat) (r : RelState) :
    (ack_pkt ck r).1.next_ackno = u32 (r.next_ackno + 1) := by
  unfold ack_pkt
  dsimp only
  split <;> rfl

/-- C3 (counterexample): the claim says a received data packet with payload
sets `next_ackno` to that packet's sequence number plus one.  The source
instead pre-increments the old `next_ackno` (`++r->next_ackno`): receiving
`badPkt` (sequence number 5) in a fresh session with `next_ackno = 1` yields
`next_ackno = 2`, not 6. -/
theorem c3_counterexample :
    (rel_recvpkt ckZero stW2 badPkt 13 []).state.next_ackno = stW2.next_ackno + 1 ∧
    (rel_recvpkt ckZero stW2 badPkt 13 []).state.next_ackno ≠ badPkt.seqno + 1 := by
  decide

/-- C3 (amended): processing a received data packet with payload sets
`next_ackno` to the OLD `next_ackno` plus one (modulo 2^32) — which equals the
packet's sequence number plus one only when the packet is exactly the next
expected one — and delivers the payload bytes (`len - 12` of them) to the
local output sink. -/
theorem c3_data_packet_effects (ck : Packet → Nat → Nat) (r : RelState) (pkt : Packet)
    (n : Nat) (stream : List ConnInput) (h : 12 < pkt.len) :
    (rel_recvpkt ck r pkt n stream).state.next_ackno = u32 (r.next_ackno + 1) ∧
    (rel_recvpkt ck r pkt n stream).outputs = [pkt.data.take (pkt.len - 12)] := by
  unfold rel_recvpkt
  rw [if_neg (by omega), if_neg (by omega)]
  exact ⟨ack_pkt_next_ackno ck r, rfl⟩

theorem c3_witness :
    12 < badPkt.len ∧
    ((rel_recvpkt ckZero fullState badPkt 13 []).state.next_ackno
        = u32 (fullState.next_ackno + 1) ∧
      (rel_recvpkt ckZero fullState badPkt 13 []).outputs = [badPkt.data.take (badPkt.len - 12)]) :=
  ⟨by decide, c3_data_packet_effects ckZero fullState badPkt 13 [] (by decide)⟩

/-- The packet `ingest_pkt` builds when the local source reports EOF: zero
payload, declared length 12, the session's next sequence number, the current
`next_ackno` piggybacked, checksum over the record with a zeroed checksum
field. -/
def eofPacket (ck : Packet → Nat → Nat) (s : RelState) : Packet :=
  { cksum := ck { cksum := 0, seqno := s.next_seqno, ackno := s.next_ackno,
                  len := 12, data := [] } 12,
    seqno := s.next_seqno, ackno := s.next_ackno, len := 12, data := [] }

/-- C4 (counterexample): the claim says the EOF packet is pushed into the
window, occupying a slot.  In the source `put_pkt` is guarded by `len > 0`, so
on EOF (a fresh capacity-2 session, source returning -1) the zero-payload
packet is transmitted but the window stays empty: occupancy stays 0 instead of
rising to 1. -/
theorem c4_counterexample :
    (rel_read ckZero stW2 [ConnInput.eof]).1.pkt_buf.count = 0 ∧
    ¬ (rel_read ckZero stW2 [ConnInput.eof]).1.pkt_buf.count = stW2.pkt_buf.count + 1 ∧
    (rel_read ckZero stW2 [ConnInput.eof]).2.1
      = [{ cksum := 0, seqno := 1, ackno := 1, len := 12, data := [] }] ∧
    (rel_read ckZero stW2 [ConnInput.eof]).1.read_error = true := by
  decide

/-- C4 (amended): when the local source reports EOF and the window has a free
slot, the engine sets the local EOF flag, emits a zero-payload data packet
carrying the next sequence number (incrementing `next_seqno`), but only
transmits it: the packet is NOT pushed into the window, so it occupies no
window slot and is not subject to the ack/retransmit discipline. -/
theorem c4_eof_emitted_not_pushed (ck : Packet → Nat → Nat) (s : RelState)
    (rest : List ConnInput) (h : 0 < buf_space s.pkt_buf) :
    (rel_read ck s (ConnInput.eof :: rest)).1.read_error = true ∧
    (rel_read ck s (ConnInput.eof :: rest)).2.1 = [eofPacket ck s] ∧
    (rel_read ck s (ConnInput.eof :: rest)).1.pkt_buf = s.pkt_buf ∧
    (rel_read ck s (ConnInput.eof :: rest)).1.next_seqno = u32 (s.next_seqno + 1) := by
  unfold rel_read ingest_pkt
  simp [if_pos h, eofPacket]

theorem c4_witness :
    (rel_read ckZero stW2 (ConnInput.eof :: [])).1.read_error = true ∧
    (rel_read ckZero stW2 (ConnInput.eof :: [])).2.1 = [eofPacket ckZero stW2] ∧
    (rel_read ckZero stW2 (ConnInput.eof :: [])).1.pkt_buf = stW2.pkt_buf ∧
    (rel_read ckZero stW2 (ConnInput.eof :: [])).1.next_seqno = u32 (stW2.next_seqno + 1) :=
  c4_eof_emitted_not_pushed ckZero stW2 [] (by decide)

/-- C5 (code bug): the `resend` scan indexes `buffer[reader + i]` without
reducing modulo the capacity.  At the wrapped window `wrapBuf` (capacity 2,
reader 1, occupancy 2 — a reachable push/push/pop/push state) the scan visits
raw indices `[1, 2]`: index 2 is at the capacity, i.e. beyond the last valid
cell, instead of the in-bounds modulo-capacity visit order `[1, 0]`.  The
final conjuncts show the expired countdown of `wrapState` really triggers the
scan there. -/
theorem c5_resend_raw_index_oob :
    resend_indices wrapBuf = [1, 2] ∧
    (∃ i ∈ resend_indices wrapBuf, ¬ i < wrapBuf.size) ∧
    resend_indices wrapBuf ≠ [1, 0] ∧
    wrapState.next_timeout - wrapState.timer ≤ 0 ∧
    0 < wrapState.pkt_buf.count := by
  decide

/-- C6 (code bug): the piggyback branch of `ack_pkt` dereferences
`buffer[writer - 1]` where `writer` is a `uint32_t`.  At `fullBuf1` (capacity
1, one outstanding packet — writer has wrapped to 0) the computed index is
`2^32 - 1`, far beyond the capacity, instead of the in-bounds
`(writer + capacity - 1) % capacity = 0` the claim describes; the last
conjunct shows `ack_pkt` takes the piggyback branch (sends no standalone ack)
exactly there. -/
theorem c6_piggyback_index_oob :
    ack_pkt_index fullBuf1 = 4294967295 ∧
    ¬ ack_pkt_index fullBuf1 < fullBuf1.size ∧
    (fullBuf1.writer + fullBuf1.size - 1) % fullBuf1.size = 0 ∧
    0 < fullBuf1.count ∧
    (ack_pkt ckZero fullState).2 = [] := by
  decide

/-- C8 (counterexample): the claim says a window size below 1 is rejected
before any session state is allocated or registered.  In the source the
session struct is `xmalloc`ed and linked into `rel_list` first; the
configuration check (and `exit(1)`) come after, so the action trace for
`window = 0` begins with the allocation and registration. -/
theorem c8_counterexample :
    rel_create_actions 0
      = [CreateAction.allocSession, CreateAction.registerSession, CreateAction.fatalExit] ∧
    CreateAction.allocSession ∈ rel_create_actions 0 ∧
    rel_create_actions 0 ≠ [CreateAction.fatalExit] := by
  decide

/-- C8 (amended): for every configured window size below 1, session creation
does fail fatally at creation time (the trace ends in `exit(1)` and no field
initialisation happens), but only AFTER the session struct has been allocated
and inserted into the live-session list. -/
theorem c8_fatal_after_alloc_register (w : Int) (h : w < 1) :
    rel_create_actions w
      = [CreateAction.allocSession, CreateAction.registerSession, CreateAction.fatalExit] ∧
    CreateAction.initFields ∉ rel_create_actions w := by
  unfold rel_create_actions
  rw [if_pos h]
  exact ⟨rfl, by decide⟩

theorem c8_witness :
    rel_create_actions 0
      = [CreateAction.allocSession, CreateAction.registerSession, CreateAction.fatalExit] ∧
    CreateAction.initFields ∉ rel_create_actions 0 :=
  c8_fatal_after_alloc_register 0 (by decide)

/-! ## Occupancy lemmas shared by the window-bound and read claims -/

theorem put_size (buf : Ringbuf) (q : Packet) : (put_pkt buf q).1.size = buf.size := by
  unfold put_pkt
  split <;> rfl

theorem put_count_le (buf : Ringbuf) (q : Packet) :
    (put_pkt buf q).1.count ≤ buf.count + 1 := by
  unfold put_pkt
  split <;> dsimp only <;> omega

theorem put_le_size (buf : Ringbuf) (q : Packet) (h : buf.count ≤ buf.size) :
    (put_pkt buf q).1.count ≤ (put_pkt buf q).1.size := by
  unfold put_pkt
  split <;> dsimp only <;> omega

theorem pop_le_size (buf : Ringbuf) (h : buf.count ≤ buf.size) :
    (pop_pkt buf).1.count ≤ (pop_pkt buf).1.size := by
  unfold pop_pkt
  split <;> dsimp only <;> omega

theorem ingest_sent_le (ck : Packet → Nat → Nat) (r : RelState) (payload : List Nat)
    (len : Int) : (ingest_pkt ck r payload len).2.length ≤ 1 := by
  unfold ingest_pkt
  split <;> simp

theorem ingest_count_le (ck : Packet → Nat → Nat) (r : RelState) (payload : List Nat)
    (len : Int) : (ingest_pkt ck r payload len).1.pkt_buf.count ≤ r.pkt_buf.count + 1 := by
  unfold ingest_pkt
  dsimp only
  split
  · dsimp only
    split
    · exact put_count_le _ _
    · dsimp only
      omega
  · dsimp only
    omega

theorem ingest_le_size (ck : Packet → Nat → Nat) (r : RelState) (payload : List Nat)
    (len : Int) (h : r.pkt_buf.count ≤ r.pkt_buf.size) :
    (ingest_pkt ck r payload len).1.pkt_buf.count
      ≤ (ingest_pkt ck r payload len).1.pkt_buf.size := by
  unfold ingest_pkt
  dsimp only
  split
  · split
    · exact put_le_size _ _ h
    · exact h
  · exact h

theorem rel_read_le_size (ck : Packet → Nat → Nat) (s : RelState) (stream : List ConnInput)
    (h : s.pkt_buf.count ≤ s.pkt_buf.size) :
    (rel_read ck s stream).1.pkt_buf.count ≤ (rel_read ck s stream).1.pkt_buf.size := by
  unfold rel_read
  split
  · cases stream with
    | nil => exact h
    | cons c rest =>
      cases c with
      | eof =>
        dsimp only
        exact ingest_le_size ck { s with read_error := true } [] (-1) h
      | data bytes =>
        dsimp only
        split
        · exact h
        · exact ingest_le_size ck { s with read_error := false } bytes
            (Int.ofNat bytes.length) h
  · exact h

theorem ack_pkt_count_eq (ck : Packet → Nat → Nat) (r : RelState) :
    (ack_pkt ck r).1.pkt_buf.count = r.pkt_buf.count ∧
    (ack_pkt ck r).1.pkt_buf.size = r.pkt_buf.size := by
  unfold ack_pkt
  dsimp only
  split <;> exact ⟨rfl, rfl⟩

theorem resend_pkt_buf_eq (r : RelState) : (resend r).1.pkt_buf = r.pkt_buf := by
  unfold resend
  dsimp only
  split <;> rfl

theorem ack_scan_count_le (buf : Ringbuf) (a : Nat) : (ack_scan buf a).count ≤ buf.count :=
  (ack_scan_count_size_aux a buf.count buf (le_refl _)).1

theorem ack_scan_size (buf : Ringbuf) (a : Nat) : (ack_scan buf a).size = buf.size :=
  (ack_scan_count_size_aux a buf.count buf (le_refl _)).2

theorem rel_recvpkt_le_size (ck : Packet → Nat → Nat) (r : RelState) (pkt : Packet)
    (n : Nat) (stream : List ConnInput) (h : r.pkt_buf.count ≤ r.pkt_buf.size) :
    (rel_recvpkt ck r pkt n stream).state.pkt_buf.count
      ≤ (rel_recvpkt ck r pkt n stream).state.pkt_buf.size := by
  unfold rel_recvpkt
  split
  · have h1 : (ack_scan r.pkt_buf pkt.ackno).count ≤ (ack_scan r.pkt_buf pkt.ackno).size := by
      rw [ack_scan_size]
      exact le_trans (ack_scan_count_le _ _) h
    exact rel_read_le_size ck _ stream h1
  · split
    · exact h
    · show (ack_pkt ck r).1.pkt_buf.count ≤ (ack_pkt ck r).1.pkt_buf.size
      rw [(ack_pkt_count_eq ck r).1, (ack_pkt_count_eq ck r).2]
      exact h

/-- C7: the window occupancy never exceeds the configured capacity.  `put_pkt`
refuses a full window (returns failure code 1 with the buffer untouched), and
each operation — push, pop, the cumulative-ack pop loop, `rel_read`, `resend`
and the whole receive handler — preserves `count ≤ size`; a freshly created
session satisfies the bound. -/
theorem c7_window_bound (ck : Packet → Nat → Nat) (r : RelState) (pkt q : Packet)
    (n a : Nat) (stream : List ConnInput) (w : Nat) (t o : Int)
    (h : r.pkt_buf.count ≤ r.pkt_buf.size) :
    (r.pkt_buf.count = r.pkt_buf.size → put_pkt r.pkt_buf q = (r.pkt_buf, 1)) ∧
    (put_pkt r.pkt_buf q).1.count ≤ (put_pkt r.pkt_buf q).1.size ∧
    (pop_pkt r.pkt_buf).1.count ≤ (pop_pkt r.pkt_buf).1.size ∧
    (ack_scan r.pkt_buf a).count ≤ (ack_scan r.pkt_buf a).size ∧
    (rel_read ck r stream).1.pkt_buf.count ≤ (rel_read ck r stream).1.pkt_buf.size ∧
    (resend r).1.pkt_buf.count ≤ (resend r).1.pkt_buf.size ∧
    (rel_recvpkt ck r pkt n stream).state.pkt_buf.count
      ≤ (rel_recvpkt ck r pkt n stream).state.pkt_buf.size ∧
    (rel_create_state w t o).pkt_buf.count ≤ (rel_create_state w t o).pkt_buf.size := by
  refine ⟨?_, put_le_size _ _ h, pop_le_size _ h, ?_, rel_read_le_size ck r stream h,
    ?_, rel_recvpkt_le_size ck r pkt n stream h, ?_⟩
  · intro hfull
    unfold put_pkt
    rw [if_neg (by omega)]
  · rw [ack_scan_size]
    exact le_trans (ack_scan_count_le _ _) h
  · rw [resend_pkt_buf_eq]
    exact h
  · exact Nat.zero_le _

theorem c7_witness :
    (fullState.pkt_buf.count = fullState.pkt_buf.size
        → put_pkt fullState.pkt_buf pktB = (fullState.pkt_buf, 1)) ∧
    (put_pkt fullState.pkt_buf pktB).1.count ≤ (put_pkt fullState.pkt_buf pktB).1.size ∧
    (pop_pkt fullState.pkt_buf).1.count ≤ (pop_pkt fullState.pkt_buf).1.size ∧
    (ack_scan fullState.pkt_buf 2).count ≤ (ack_scan fullState.pkt_buf 2).size ∧
    (rel_read ckZero fullState []).1.pkt_buf.count
      ≤ (rel_read ckZero fullState []).1.pkt_buf.size ∧
    (resend fullState).1.pkt_buf.count ≤ (resend fullState).1.pkt_buf.size ∧
    (rel_recvpkt ckZero fullState badPkt 13 []).state.pkt_buf.count
      ≤ (rel_recvpkt ckZero fullState badPkt 13 []).state.pkt_buf.size ∧
    (rel_create_state 2 500 500).pkt_buf.count ≤ (rel_create_state 2 500 500).pkt_buf.size :=
  c7_window_bound ckZero fullState badPkt pktB 13 2 [] 2 500 500 (by decide)

/-- C9 (counterexample): the claim says a single input-available event with at
least two free window slots and sufficient pending input produces more than
one data packet.  On a fresh capacity-2 session (two free slots) with two
pending one-byte chunks, one `rel_read` invocation produces exactly one
packet, leaves the second chunk unconsumed and leaves a window slot free. -/
theorem c9_counterexample :
    (rel_read ckZero stW2 [ConnInput.data [65], ConnInput.data [66]]).2.1.length = 1 ∧
    ¬ 1 < (rel_read ckZero stW2 [ConnInput.data [65], ConnInput.data [66]]).2.1.length ∧
    (rel_read ckZero stW2 [ConnInput.data [65], ConnInput.data [66]]).2.2
      = [ConnInput.data [66]] ∧
    0 < buf_space (rel_read ckZero stW2 [ConnInput.data [65], ConnInput.data [66]]).1.pkt_buf := by
  decide

/-- C9 (amended): each invocation of the read handler performs exactly one
`conn_input` call: it consumes at most one chunk of pending input, sends at
most one data packet and grows the window by at most one entry, no matter how
many free slots or pending chunks exist; further input is consumed only by
later invocations (e.g. when ack processing calls the handler again). -/
theorem c9_single_read_per_event (ck : Packet → Nat → Nat) (s : RelState)
    (stream : List ConnInput) :
    (rel_read ck s stream).2.1.length ≤ 1 ∧
    stream.length ≤ (rel_read ck s stream).2.2.length + 1 ∧
    (rel_read ck s stream).1.pkt_buf.count ≤ s.pkt_buf.count + 1 := by
  unfold rel_read
  split
  · cases stream with
    | nil =>
      refine ⟨by simp, by simp, by dsimp only; omega⟩
    | cons c rest =>
      cases c with
      | eof =>
        dsimp only
        exact ⟨ingest_sent_le ck _ [] (-1), by simp,
          ingest_count_le ck { s with read_error := true } [] (-1)⟩
      | data bytes =>
        dsimp only
        split
        · refine ⟨by simp, by simp, by dsimp only; omega⟩
        · exact ⟨ingest_sent_le ck _ bytes (Int.ofNat bytes.length), by simp,
            ingest_count_le ck { s with read_error := false } bytes (Int.ofNat bytes.length)⟩
  · refine ⟨by simp, by dsimp only; omega, by dsimp only; omega⟩
